import Mathlib

/-!
Verification of the cached parallel comment-analysis engine
(`src/analyze_video.py`, `src/analyze_all.py`) of the `carl-tasks`
YouTube-summary pipeline, as a shallow embedding in Lean 4.

External effects (the LLM call, file I/O, thread scheduling) are made
explicit as parameters: a batch's external outcome is a `BatchOutcome`
value, cache I/O results are `Except`-valued parameters, and the
nondeterministic completion order of thread pools is an explicit
permutation parameter.  Everything else is translated directly from the
Python source.
-/

set_option maxRecDepth 100000

namespace Carl

/-! ### MD5 (RFC 1321), used by `get_cache_key`

`get_cache_key` computes `hashlib.md5(cache_string.encode()).hexdigest()[:16]`.
We implement MD5 over byte lists (bytes as `Nat` values below 256),
with UTF-8 encoding of the input string, so that concrete fingerprints
can be evaluated inside Lean. -/

def u32 : Nat := 4294967296

/-- The 64 MD5 sine-derived constants `K[i] = floor(2^32 * |sin(i+1)|)`. -/
def md5K : List Nat :=
  [0xd76aa478, 0xe8c7b756, 0x242070db, 0xc1bdceee,
   0xf57c0faf, 0x4787c62a, 0xa8304613, 0xfd469501,
   0x698098d8, 0x8b44f7af, 0xffff5bb1, 0x895cd7be,
   0x6b901122, 0xfd987193, 0xa679438e, 0x49b40821,
   0xf61e2562, 0xc040b340, 0x265e5a51, 0xe9b6c7aa,
   0xd62f105d, 0x02441453, 0xd8a1e681, 0xe7d3fbc8,
   0x21e1cde6, 0xc33707d6, 0xf4d50d87, 0x455a14ed,
   0xa9e3e905, 0xfcefa3f8, 0x676f02d9, 0x8d2a4c8a,
   0xfffa3942, 0x8771f681, 0x6d9d6122, 0xfde5380c,
   0xa4beea44, 0x4bdecfa9, 0xf6bb4b60, 0xbebfbc70,
   0x289b7ec6, 0xeaa127fa, 0xd4ef3085, 0x04881d05,
   0xd9d4d039, 0xe6db99e5, 0x1fa27cf8, 0xc4ac5665,
   0xf4292244, 0x432aff97, 0xab9423a7, 0xfc93a039,
   0x655b59c3, 0x8f0ccc92, 0xffeff47d, 0x85845dd1,
   0x6fa87e4f, 0xfe2ce6e0, 0xa3014314, 0x4e0811a1,
   0xf7537e82, 0xbd3af235, 0x2ad7d2bb, 0xeb86d391]

/-- Per-round left-rotation amounts. -/
def md5S : List Nat :=
  [7, 12, 17, 22, 7, 12, 17, 22, 7, 12, 17, 22, 7, 12, 17, 22,
   5, 9, 14, 20, 5, 9, 14, 20, 5, 9, 14, 20, 5, 9, 14, 20,
   4, 11, 16, 23, 4, 11, 16, 23, 4, 11, 16, 23, 4, 11, 16, 23,
   6, 10, 15, 21, 6, 10, 15, 21, 6, 10, 15, 21, 6, 10, 15, 21]

def rotl32 (x s : Nat) : Nat :=
  (((x % u32) <<< s) % u32) ||| ((x % u32) >>> (32 - s))

def md5F (b c d : Nat) : Nat := (b &&& c) ||| ((b ^^^ 0xffffffff) &&& d)
def md5G (b c d : Nat) : Nat := (d &&& b) ||| ((d ^^^ 0xffffffff) &&& c)
def md5H (b c d : Nat) : Nat := b ^^^ c ^^^ d
def md5I (b c d : Nat) : Nat := c ^^^ (b ||| (d ^^^ 0xffffffff))

/-- MD5 state: the four 32-bit registers. -/
structure MD5State where
  a : Nat
  b : Nat
  c : Nat
  d : Nat
deriving Repr, DecidableEq

/-- One of the 64 MD5 operations, applied to the working registers. -/
def md5Step (m : Nat → Nat) (st : MD5State) (i : Nat) : MD5State :=
  let f :=
    if i < 16 then md5F st.b st.c st.d
    else if i < 32 then md5G st.b st.c st.d
    else if i < 48 then md5H st.b st.c st.d
    else md5I st.b st.c st.d
  let g :=
    if i < 16 then i
    else if i < 32 then (5 * i + 1) % 16
    else if i < 48 then (3 * i + 5) % 16
    else (7 * i) % 16
  let tmp := (st.a + f + md5K.getD i 0 + m g) % u32
  ⟨st.d, (st.b + rotl32 tmp (md5S.getD i 0)) % u32, st.b, st.c⟩

/-- Decode a 64-byte block into its 16 little-endian 32-bit words. -/
def blockWord (block : List Nat) (j : Nat) : Nat :=
  block.getD (4 * j) 0 + 256 * block.getD (4 * j + 1) 0 +
    65536 * block.getD (4 * j + 2) 0 + 16777216 * block.getD (4 * j + 3) 0

/-- Process one 512-bit block, updating the chaining state. -/
def md5Block (st : MD5State) (block : List Nat) : MD5State :=
  let r := (List.range 64).foldl (md5Step (blockWord block)) st
  ⟨(st.a + r.a) % u32, (st.b + r.b) % u32, (st.c + r.c) % u32, (st.d + r.d) % u32⟩

/-- Split a list into chunks of `n` (fuel-based; `n > 0` in all uses). -/
def chunksAux (n : Nat) : Nat → List Nat → List (List Nat)
  | 0, _ => []
  | _, [] => []
  | fuel + 1, l => l.take n :: chunksAux n fuel (l.drop n)

def chunks (n : Nat) (l : List Nat) : List (List Nat) :=
  chunksAux n l.length l

/-- RFC 1321 padding: a 0x80 byte, zeros to 56 mod 64, then the
original bit length as a 64-bit little-endian quantity. -/
def md5Pad (msg : List Nat) : List Nat :=
  let zeros := (119 - msg.length % 64) % 64
  let bitLen := (msg.length * 8) % 18446744073709551616
  msg ++ [0x80] ++ List.replicate zeros 0 ++
    (List.range 8).map (fun j => (bitLen >>> (8 * j)) % 256)

def md5Init : MD5State := ⟨0x67452301, 0xefcdab89, 0x98badcfe, 0x10325476⟩

/-- The four final MD5 registers for a byte-list message. -/
def md5Words (msg : List Nat) : MD5State :=
  (chunks 64 (md5Pad msg)).foldl md5Block md5Init

def hexDigit (n : Nat) : Char :=
  if n < 10 then Char.ofNat (48 + n) else Char.ofNat (87 + n)

def byteHexChars (b : Nat) : List Char := [hexDigit (b / 16), hexDigit (b % 16)]

/-- A 32-bit word as its four little-endian bytes. -/
def wordLEBytes (w : Nat) : List Nat :=
  [w % 256, (w >>> 8) % 256, (w >>> 16) % 256, (w >>> 24) % 256]

/-- The 32-character lowercase hex rendering of a final MD5 state. -/
def hexOfState (st : MD5State) : String :=
  ⟨(wordLEBytes st.a ++ wordLEBytes st.b ++ wordLEBytes st.c ++
      wordLEBytes st.d).flatMap byteHexChars⟩

/-- Python `hashlib.md5(...).hexdigest()` for a byte-list message. -/
def md5HexDigest (msg : List Nat) : String :=
  hexOfState (md5Words msg)

/-- UTF-8 encoding of one character (bytes as `Nat`). -/
def utf8Bytes (c : Char) : List Nat :=
  let n := c.toNat
  if n < 0x80 then [n]
  else if n < 0x800 then [0xc0 + n / 64, 0x80 + n % 64]
  else if n < 0x10000 then
    [0xe0 + n / 4096, 0x80 + (n / 64) % 64, 0x80 + n % 64]
  else
    [0xf0 + n / 262144, 0x80 + (n / 4096) % 64, 0x80 + (n / 64) % 64,
     0x80 + n % 64]

/-- Python `s.encode()` — UTF-8 bytes of a string. -/
def strBytes (s : String) : List Nat := s.data.flatMap utf8Bytes

/-- Python `hashlib.md5(s.encode()).hexdigest()`. -/
def md5HexOfString (s : String) : String := md5HexDigest (strBytes s)

/-- RFC 1321 test vector: MD5 of the empty string. -/
theorem md5_empty_vector : md5HexOfString "" = "d41d8cd98f00b204e9800998ecf8427e" := by
  decide

/-- RFC 1321 test vector: MD5 of "abc". -/
theorem md5_abc_vector : md5HexOfString "abc" = "900150983cd24fb0d6963f7d28e17f72" := by
  decide

/-! ### Configuration dictionary

The pipeline passes one `config` dictionary around.  We model it as a
structure whose fields are the keys the source reads, each `Option`al
(a key may be absent from the dictionary).  `log_verbosity` stands for
a key that no core function reads — it is needed to state that fields
outside the fingerprint subset do not affect the cache key. -/

structure Config where
  analysis_model : Option String := none
  min_length : Option Nat := none
  filter_language : Option String := none
  batch_size : Option Nat := none
  max_comments : Option Nat := none
  cache_version : Option String := none
  analyze_audience : Option Bool := none
  language_analysis : Option Bool := none
  use_cache : Option Bool := none
  enable_fallback : Option Bool := none
  max_batch_workers : Option Nat := none
  max_video_workers : Option Nat := none
  log_verbosity : Option String := none
deriving Repr, DecidableEq

/-! ### `json.dumps` of the cache-parameter dictionary -/

/-- A JSON value of the shapes that occur in `cache_params`. -/
inductive JVal where
  | jnull
  | jstr (s : String)
  | jnat (n : Nat)
  | jbool (b : Bool)
deriving Repr, DecidableEq

/-- Four lowercase hex digits, as in a JSON `\u` escape. -/
def u4hex (n : Nat) : List Char :=
  [hexDigit (n / 4096 % 16), hexDigit (n / 256 % 16),
   hexDigit (n / 16 % 16), hexDigit (n % 16)]

/-- Python `json.dumps` escaping of one character (`ensure_ascii=True`,
the default used by the source). -/
def jsonEscapeChar (c : Char) : List Char :=
  if c = '"' then ['\\', '"']
  else if c = '\\' then ['\\', '\\']
  else if c = '\n' then ['\\', 'n']
  else if c = '\r' then ['\\', 'r']
  else if c = '\t' then ['\\', 't']
  else if c.toNat = 8 then ['\\', 'b']
  else if c.toNat = 12 then ['\\', 'f']
  else if c.toNat < 32 ∨ 126 < c.toNat then
    if c.toNat < 65536 then '\\' :: 'u' :: u4hex c.toNat
    else
      ('\\' :: 'u' :: u4hex (55296 + (c.toNat - 65536) / 1024)) ++
        ('\\' :: 'u' :: u4hex (56320 + (c.toNat - 65536) % 1024))
  else [c]

/-- A JSON string literal, quotes included. -/
def jsonStr (s : String) : String :=
  ⟨'"' :: s.data.flatMap jsonEscapeChar ++ ['"']⟩

def jsonVal : JVal → String
  | .jnull => "null"
  | .jstr s => jsonStr s
  | .jnat n => toString n
  | .jbool true => "true"
  | .jbool false => "false"

/-- Python `json.dumps(d, sort_keys=True)` for a flat dictionary given as a
key-sorted association list (default separators `", "` and `": "`). -/
def jsonDumps (kvs : List (String × JVal)) : String :=
  "\x7b" ++ String.intercalate ", "
      (kvs.map (fun kv => jsonStr kv.1 ++ ": " ++ jsonVal kv.2)) ++ "\x7d"

def optStr : Option String → JVal
  | none => .jnull
  | some s => .jstr s

def optNat : Option Nat → JVal
  | none => .jnull
  | some n => .jnat n

/-! ### `get_cache_key` (analyze_video.py lines 32–47) -/

/-- The `cache_params` dictionary of `get_cache_key`, with its keys
already in the sorted order `json.dumps(…, sort_keys=True)` uses. -/
def cacheParams (video_id : String) (cfg : Config) : List (String × JVal) :=
  [("analysis_model", optStr cfg.analysis_model),
   ("analyze_audience", JVal.jbool (cfg.analyze_audience.getD false)),
   ("batch_size", optNat cfg.batch_size),
   ("cache_version", JVal.jstr (cfg.cache_version.getD "1.0")),
   ("filter_language", optStr cfg.filter_language),
   ("language_analysis", JVal.jbool (cfg.language_analysis.getD false)),
   ("max_comments", optNat cfg.max_comments),
   ("min_length", optNat cfg.min_length),
   ("video_id", JVal.jstr video_id)]

/-- The canonical pre-hash string `json.dumps(cache_params, sort_keys=True)`. -/
def cacheString (video_id : String) (cfg : Config) : String :=
  jsonDumps (cacheParams video_id cfg)

/-- Function `get_cache_key`: first 16 hex characters of the MD5 of the canonical
cache string. -/
def get_cache_key (video_id : String) (cfg : Config) : String :=
  ⟨(md5HexOfString (cacheString video_id cfg)).data.take 16⟩

/-- A sample effective configuration (the reference point for the
fingerprint-sensitivity checks). -/
def cfgSample : Config :=
  { analysis_model := some "gpt-4o-mini"
    min_length := some 10
    filter_language := none
    batch_size := some 10
    max_comments := some 1000
    cache_version := some "1.0"
    analyze_audience := some false
    language_analysis := some false
    use_cache := some true
    enable_fallback := some true
    max_batch_workers := some 2
    max_video_workers := some 3
    log_verbosity := some "debug" }

/-- The embedded `get_cache_key` reproduces the reference fingerprint of
`cfgSample` (cross-checked against the CPython implementation). -/
theorem get_cache_key_sample :
    get_cache_key "abc123" cfgSample = "8d942e32d01aa74c" := by decide

/-- All four registers of an MD5 state are 32-bit values. -/
def StateBounded (st : MD5State) : Prop :=
  st.a < u32 ∧ st.b < u32 ∧ st.c < u32 ∧ st.d < u32

lemma stateBounded_md5Block (st : MD5State) (block : List Nat) :
    StateBounded (md5Block st block) := by
  unfold StateBounded md5Block
  refine ⟨?_, ?_, ?_, ?_⟩ <;> exact Nat.mod_lt _ (by norm_num [u32])

lemma stateBounded_foldl (blocks : List (List Nat)) (st : MD5State)
    (h : StateBounded st) : StateBounded (blocks.foldl md5Block st) := by
  induction blocks generalizing st with
  | nil => exact h
  | cons b bs ih => exact ih _ (stateBounded_md5Block _ _)

lemma md5Words_bounded (msg : List Nat) : StateBounded (md5Words msg) :=
  stateBounded_foldl _ _ (by refine ⟨?_, ?_, ?_, ?_⟩ <;> norm_num [md5Init, u32])

/-- The final MD5 registers of the cache string of `cfgSample` with a
given batch size, packaged as an element of a finite type. -/
def batchSizeFingerState (n : Nat) : Fin u32 × Fin u32 × Fin u32 × Fin u32 :=
  let st := md5Words (strBytes (cacheString "abc123"
    { cfgSample with batch_size := some n }))
  (⟨st.a, (md5Words_bounded _).1⟩, ⟨st.b, (md5Words_bounded _).2.1⟩,
   ⟨st.c, (md5Words_bounded _).2.2.1⟩, ⟨st.d, (md5Words_bounded _).2.2.2⟩)

lemma hexOfState_congr (s t : MD5State) (ha : s.a = t.a) (hb : s.b = t.b)
    (hc : s.c = t.c) (hd : s.d = t.d) : hexOfState s = hexOfState t := by
  cases s; cases t
  simp only at ha hb hc hd
  subst ha; subst hb; subst hc; subst hd; rfl

/-- Counterexample to claim C6: the fingerprint is the MD5 digest truncated to 16
hex characters, i.e. 64 bits, so by pigeonhole it cannot separate every
pair of configurations that differ in `batch_size`: two configurations
differing in a field of the enumerated subset share a fingerprint. -/
theorem get_cache_key_subset_collision :
    ∃ c c' : Config, c.batch_size ≠ c'.batch_size ∧
      get_cache_key "abc123" c = get_cache_key "abc123" c' := by
  obtain ⟨n, m, hnm, hF⟩ :=
    Finite.exists_ne_map_eq_of_infinite batchSizeFingerState
  simp only [batchSizeFingerState, Prod.mk.injEq, Fin.mk.injEq] at hF
  refine ⟨{ cfgSample with batch_size := some n },
          { cfgSample with batch_size := some m }, by simpa using hnm, ?_⟩
  simp only [get_cache_key, md5HexOfString, md5HexDigest]
  exact congrArg (fun s => (⟨s.data.take 16⟩ : String))
    (hexOfState_congr _ _ hF.1 hF.2.1 hF.2.2.1 hF.2.2.2)

lemma hexOfState_length (st : MD5State) : (hexOfState st).length = 32 := by
  simp [hexOfState, wordLEBytes, byteHexChars, String.length]

lemma string_mk_length (l : List Char) : (⟨l⟩ : String).length = l.length := rfl

lemma get_cache_key_length (v : String) (c : Config) :
    (get_cache_key v c).length = 16 := by
  have h : ((hexOfState (md5Words (strBytes (cacheString v c)))).data).length = 32 :=
    hexOfState_length _
  simp only [get_cache_key, md5HexOfString, md5HexDigest, string_mk_length,
    List.length_take, h]
  decide

/-- Claim C6 as amended: `get_cache_key` is a pure function of the video id and
the enumerated config subset {analysis_model, min_length,
filter_language, batch_size, max_comments, cache_version,
analyze_audience, language_analysis}: two configurations that agree on
that subset get the same fingerprint, whatever their other fields;
the fingerprint always has exactly 16 characters; and changing
`batch_size` in the sample configuration does change the fingerprint
(though the 64-bit truncated hash cannot guarantee that for every
change, see the pigeonhole counterexample). -/
theorem get_cache_key_enumerated_subset :
    (∀ (v : String) (c c' : Config),
        c.analysis_model = c'.analysis_model →
        c.min_length = c'.min_length →
        c.filter_language = c'.filter_language →
        c.batch_size = c'.batch_size →
        c.max_comments = c'.max_comments →
        c.cache_version = c'.cache_version →
        c.analyze_audience = c'.analyze_audience →
        c.language_analysis = c'.language_analysis →
        get_cache_key v c = get_cache_key v c') ∧
    get_cache_key "abc123" cfgSample ≠
      get_cache_key "abc123" { cfgSample with batch_size := some 20 } ∧
    (∀ (v : String) (c : Config), (get_cache_key v c).length = 16) := by
  refine ⟨?_, by decide, fun v c => get_cache_key_length v c⟩
  intro v c c' h1 h2 h3 h4 h5 h6 h7 h8
  simp only [get_cache_key, md5HexOfString, md5HexDigest, cacheString,
    cacheParams, h1, h2, h3, h4, h5, h6, h7, h8]

/-- Witness for C6: concrete instance of the subset-agreement part —
changing only the (unrelated) log-verbosity field leaves the
fingerprint unchanged. -/
theorem get_cache_key_enumerated_subset_witness :
    get_cache_key "abc123" cfgSample =
      get_cache_key "abc123" { cfgSample with log_verbosity := some "quiet" } :=
  get_cache_key_enumerated_subset.1 "abc123" _ _ rfl rfl rfl rfl rfl rfl rfl rfl

/-! ### Batch analyzer (analyze_video.py lines 113–222)

The external LLM call is the only effect in `analyze_comments_batch`.
Its observable outcome at the parsing boundary is one of: the call
raised (`exn`), the response contained no bracketed JSON array
(`noJson`), or a JSON array was extracted whose entries each either
validate into a `CommentAnalysis` or fail pydantic validation
(`parsed`, with `none` for a failed per-item validation). -/

structure CommentAnalysis where
  sentiment : String
  topics : List String
  pain_points : List String
  advantages : List String
  recommendations_for_creator : List String
  is_relevant_feedback : Bool
deriving Repr, DecidableEq

/-- The neutral default assigned to empty/short comments without calling
the external capability. -/
def neutralDefault : CommentAnalysis :=
  ⟨"neutral", [], [], [], [], false⟩

/-- The degraded analysis produced by the single-comment fallback for a
long-enough comment. -/
def degradedFallback : CommentAnalysis :=
  ⟨"neutral", ["general"], [], [], [], true⟩

/-- ASCII whitespace as stripped by Python `str.strip()`. -/
def isPyWhitespace (c : Char) : Bool :=
  c = ' ' || c = '\t' || c = '\n' || c = '\r' || c.toNat = 11 || c.toNat = 12

/-- Python `s.strip()` (whitespace from both ends). -/
def pyStrip (s : String) : String :=
  ⟨((s.data.dropWhile isPyWhitespace).reverse.dropWhile isPyWhitespace).reverse⟩

/-- Python `s.lower()` (ASCII case folding). -/
def pyLower (s : String) : String :=
  ⟨s.data.map Char.toLower⟩

/-- Python `not comment_text or len(comment_text.strip()) < min_length`
(for string-valued comments). -/
def isShortComment (minLength : Nat) (c : String) : Bool :=
  c == "" || (pyStrip c).length < minLength

inductive BatchOutcome where
  | exn (msg : String)
  | noJson
  | parsed (items : List (Option CommentAnalysis))
deriving Repr, DecidableEq

/-- Function `analyze_comments_fallback`: per-comment degraded analysis. -/
def analyze_comments_fallback (comments : List String) (minLength : Nat) :
    List (Option CommentAnalysis) :=
  comments.map (fun c =>
    if isShortComment minLength c then some neutralDefault
    else some degradedFallback)

/-- Assignments `results[original_idx] = …` of of the response-mapping
loop, in order. -/
def assignResults (r : List (Option CommentAnalysis)) :
    List (Nat × Option CommentAnalysis) → List (Option CommentAnalysis)
  | [] => r
  | (i, v) :: rest => assignResults (r.set i v) rest

/-- The original positions of the comments collected into
`valid_comments`, in order. -/
def validIndices (comments : List String) (minLength : Nat) : List Nat :=
  (comments.enum.filter (fun p => !isShortComment minLength p.2)).map Prod.fst

/-- Function `analyze_comments_batch`: short comments get the neutral default
immediately; the remaining ones are sent out and the response entries
are zipped back onto them. -/
def analyze_comments_batch (comments : List String) (minLength : Nat)
    (enableFallback : Bool) (outcome : BatchOutcome) :
    List (Option CommentAnalysis) :=
  let results := comments.map (fun c =>
    if isShortComment minLength c then some neutralDefault else none)
  let valid := validIndices comments minLength
  if valid.isEmpty then results
  else
    match outcome with
    | .exn _ =>
        if enableFallback then analyze_comments_fallback comments minLength
        else results
    | .noJson =>
        if enableFallback then analyze_comments_fallback comments minLength
        else results
    | .parsed items => assignResults results (valid.zip items)

/-! ### Video batch scheduler (analyze_video.py lines 225–269) -/

/-- What a batch's worker task did: returned normally from
`analyze_comments_batch` (with the external outcome it saw), or raised,
making `future.result()` re-raise in the collection loop. -/
inductive BatchRun where
  | ok (outcome : BatchOutcome)
  | crashed (msg : String)

/-- An entry of `analyzed_comments`: an analysis dictionary or an
explicit error-marker dictionary. -/
inductive AnalyzedComment where
  | analysis (a : CommentAnalysis)
  | errorMarker (msg : String)
deriving Repr, DecidableEq

/-- The batch slicing loop `for i in range(0, len(comment_texts),
batch_size)` (fuel-based; the Python loop needs `batch_size > 0`). -/
def makeBatchesAux : Nat → Nat → List String → List (List String)
  | 0, _, _ => []
  | _, _, [] => []
  | fuel + 1, bs, l => l.take bs :: makeBatchesAux fuel bs (l.drop bs)

def makeBatches (bs : Nat) (l : List String) : List (List String) :=
  makeBatchesAux l.length bs l

/-- The per-comment slots of `all_results` after every batch completed.
Each batch writes its own contiguous slot range `batch_start + i`; since
the ranges are disjoint and every batch produces exactly one entry per
input comment (`analyze_comments_batch_length` below), the filled array
is the concatenation of the per-batch result lists, whatever the
completion order. -/
def batchSlots (minLength : Nat) (enableFallback : Bool)
    (runs : Nat → BatchRun) (batches : List (List String)) :
    List (Option AnalyzedComment) :=
  (batches.enum.map (fun p =>
    match runs p.1 with
    | .ok outcome =>
        (analyze_comments_batch p.2 minLength enableFallback outcome).map
          (fun o => o.map AnalyzedComment.analysis)
    | .crashed msg =>
        p.2.map (fun _ => some (AnalyzedComment.errorMarker
          ("Batch processing failed: " ++ msg))))).flatten

/-- Result of one scheduler invocation: the worker-pool bound it
configured, the number of batches, and the reassembled results
(`return [result for result in all_results if result is not None]`). -/
structure SchedulerRun where
  pool_max_workers : Nat
  num_batches : Nat
  results : List AnalyzedComment

/-- Function `process_video_batches_parallel`. -/
def process_video_batches_parallel (texts : List String) (cfg : Config)
    (runs : Nat → BatchRun) : SchedulerRun :=
  let batch_size := cfg.batch_size.getD 20
  let max_workers := cfg.max_batch_workers.getD 2
  let min_length := cfg.min_length.getD 10
  let enable_fallback := cfg.enable_fallback.getD true
  let batches := makeBatches batch_size texts
  let slots := batchSlots min_length enable_fallback runs batches
  ⟨max_workers, batches.length, slots.filterMap id⟩

lemma assignResults_length (ps : List (Nat × Option CommentAnalysis))
    (r : List (Option CommentAnalysis)) :
    (assignResults r ps).length = r.length := by
  induction ps generalizing r with
  | nil => rfl
  | cons p ps ih =>
    obtain ⟨i, v⟩ := p
    simp [assignResults, ih, List.length_set]

/-- One result entry per input comment, in every branch. -/
lemma analyze_comments_batch_length (comments : List String)
    (minLength : Nat) (fb : Bool) (o : BatchOutcome) :
    (analyze_comments_batch comments minLength fb o).length =
      comments.length := by
  cases o with
  | exn m =>
    simp only [analyze_comments_batch]
    split
    · simp
    · split
      · simp [analyze_comments_fallback]
      · simp
  | noJson =>
    simp only [analyze_comments_batch]
    split
    · simp
    · split
      · simp [analyze_comments_fallback]
      · simp
  | parsed items =>
    simp only [analyze_comments_batch]
    split
    · simp
    · simp [assignResults_length]

lemma makeBatchesAux_flatten (bs : Nat) (hbs : 0 < bs) :
    ∀ (fuel : Nat) (l : List String), l.length ≤ fuel →
      (makeBatchesAux fuel bs l).flatten = l := by
  intro fuel
  induction fuel with
  | zero =>
    intro l hl
    have : l = [] := List.eq_nil_of_length_eq_zero (Nat.le_zero.mp hl)
    subst this; rfl
  | succ n ih =>
    intro l hl
    cases l with
    | nil => rfl
    | cons a as =>
      show ((a :: as).take bs :: makeBatchesAux n bs ((a :: as).drop bs)).flatten
          = a :: as
      rw [List.flatten_cons, ih ((a :: as).drop bs) ?_, List.take_append_drop]
      simp only [List.length_drop, List.length_cons] at hl ⊢
      omega

lemma makeBatches_flatten (bs : Nat) (l : List String) (hbs : 0 < bs) :
    (makeBatches bs l).flatten = l :=
  makeBatchesAux_flatten bs hbs l.length l le_rfl

lemma batchSlots_length (minLength : Nat) (fb : Bool) (runs : Nat → BatchRun)
    (batches : List (List String)) :
    (batchSlots minLength fb runs batches).length = batches.flatten.length := by
  unfold batchSlots
  rw [List.length_flatten, List.length_flatten]
  congr 1
  have h : ∀ ps : List (Nat × List String),
      (ps.map (fun p =>
        match runs p.1 with
        | .ok outcome =>
            (analyze_comments_batch p.2 minLength fb outcome).map
              (fun o => o.map AnalyzedComment.analysis)
        | .crashed msg =>
            p.2.map (fun _ => some (AnalyzedComment.errorMarker
              ("Batch processing failed: " ++ msg))))).map List.length =
        ps.map (fun p => p.2.length) := by
    intro ps
    induction ps with
    | nil => rfl
    | cons p ps ih =>
      simp only [List.map_cons, ih]
      congr 1
      cases runs p.1 with
      | ok outcome => simp [analyze_comments_batch_length]
      | crashed msg => simp
  rw [h]
  have h2 : batches.enum.map (fun p => p.2.length) =
      (batches.enum.map Prod.snd).map List.length := by
    rw [List.map_map]; rfl
  rw [h2, List.enum_map_snd]

/-- If the validity filter kept nothing, every comment is short. -/
lemma all_short_of_validIndices_empty (comments : List String) (m : Nat)
    (h : validIndices comments m = []) :
    ∀ c ∈ comments, isShortComment m c = true := by
  intro c hc
  unfold validIndices at h
  have hfil := List.map_eq_nil_iff.mp h
  obtain ⟨i, hi, hget⟩ := List.mem_iff_getElem.mp hc
  have hilen : i < comments.enum.length := by simpa using hi
  have hmem : (i, c) ∈ comments.enum := by
    rw [← hget, ← List.getElem_enum comments i hilen]
    exact List.getElem_mem hilen
  have := List.filter_eq_nil_iff.mp hfil _ hmem
  simpa using this

lemma fallback_all_some (comments : List String) (m : Nat) :
    ∀ x ∈ analyze_comments_fallback comments m, x.isSome := by
  intro x hx
  obtain ⟨c, _, rfl⟩ := List.mem_map.mp hx
  split <;> rfl

lemma batch_failure_all_some (comments : List String) (m : Nat)
    (o : BatchOutcome) (ho : (∃ s, o = .exn s) ∨ o = .noJson) :
    ∀ x ∈ analyze_comments_batch comments m true o, x.isSome := by
  intro x hx
  rcases ho with ⟨s, rfl⟩ | rfl
  all_goals
    simp only [analyze_comments_batch] at hx
    split at hx
    case isTrue hempty =>
      obtain ⟨c, hc, rfl⟩ := List.mem_map.mp hx
      have := all_short_of_validIndices_empty comments m
        (List.isEmpty_iff.mp hempty) c hc
      simp [this]
    case isFalse _ =>
      rw [if_pos trivial] at hx
      exact fallback_all_some comments m x hx

lemma filterMap_id_length_all_some {α : Type} :
    ∀ (l : List (Option α)), (∀ x ∈ l, x.isSome) →
      (l.filterMap id).length = l.length := by
  intro l
  induction l with
  | nil => intro _; rfl
  | cons x xs ih =>
    intro h
    obtain ⟨a, rfl⟩ := Option.isSome_iff_exists.mp (h x (List.mem_cons_self x xs))
    simp only [List.filterMap_cons, id]
    rw [List.length_cons, ih (fun y hy => h y (List.mem_cons_of_mem _ hy))]
    rfl

/-- Members of an enumerated list have in-range indices. -/
lemma enum_mem_lt {α : Type} (l : List α) (p : Nat × α) (hp : p ∈ l.enum) :
    p.1 < l.length := by
  obtain ⟨i, x⟩ := p
  have h := List.mem_enumFrom hp
  simpa using h.2.1

/-- Counterexample to claim C1: one long-enough comment, fallback
disabled, unparsable response — the scheduler returns zero entries, not
one: the comment is silently dropped by the final `is not None` filter. -/
theorem scheduler_can_drop_comments :
    (process_video_batches_parallel ["hello world comment"]
        { cfgSample with enable_fallback := some false }
        (fun _ => BatchRun.ok BatchOutcome.noJson)).results.length ≠ 1 := by
  decide

/-- Claim C1 as amended: with a positive batch size the scheduler
computes exactly one outcome slot per input comment and returns the
non-None slots in original input order, hence at most N entries; and
exactly N entries whenever fallback is enabled and every batch fails
wholesale (exception, unparsable response, or crashed worker task), so
only per-item None outcomes (partial/invalid parsed entries, or batch
failure with fallback disabled) are dropped. -/
theorem scheduler_cardinality (texts : List String) (cfg : Config)
    (runs : Nat → BatchRun) (hbs : 0 < cfg.batch_size.getD 20) :
    (process_video_batches_parallel texts cfg runs).results.length ≤
        texts.length ∧
    (cfg.enable_fallback.getD true = true →
      (∀ i, i < (makeBatches (cfg.batch_size.getD 20) texts).length →
        (∃ m, runs i = .ok (.exn m)) ∨ runs i = .ok .noJson ∨
          ∃ m, runs i = .crashed m) →
      (process_video_batches_parallel texts cfg runs).results.length =
        texts.length) := by
  have hslots : (batchSlots (cfg.min_length.getD 10)
      (cfg.enable_fallback.getD true) runs
      (makeBatches (cfg.batch_size.getD 20) texts)).length = texts.length := by
    rw [batchSlots_length, makeBatches_flatten _ _ hbs]
  constructor
  · calc (process_video_batches_parallel texts cfg runs).results.length
        ≤ (batchSlots (cfg.min_length.getD 10) (cfg.enable_fallback.getD true)
            runs (makeBatches (cfg.batch_size.getD 20) texts)).length :=
          List.length_filterMap_le _ _
      _ = texts.length := hslots
  · intro hfb hfail
    show (List.filterMap id _).length = _
    rw [filterMap_id_length_all_some, hslots]
    intro x hx
    unfold batchSlots at hx
    rw [List.mem_flatten] at hx
    obtain ⟨part, hpart, hxpart⟩ := hx
    obtain ⟨p, hpenum, rfl⟩ := List.mem_map.mp hpart
    have hplt := enum_mem_lt _ _ hpenum
    rcases hfail p.1 hplt with ⟨m, hm⟩ | hm | ⟨m, hm⟩ <;>
      rw [hm] at hxpart
    · rw [hfb] at hxpart
      obtain ⟨o, ho, rfl⟩ := List.mem_map.mp hxpart
      have hs := batch_failure_all_some p.2 (cfg.min_length.getD 10)
        (.exn m) (Or.inl ⟨m, rfl⟩) o ho
      cases o
      · simp at hs
      · rfl
    · rw [hfb] at hxpart
      obtain ⟨o, ho, rfl⟩ := List.mem_map.mp hxpart
      have hs := batch_failure_all_some p.2 (cfg.min_length.getD 10)
        .noJson (Or.inr rfl) o ho
      cases o
      · simp at hs
      · rfl
    · obtain ⟨c, _, rfl⟩ := List.mem_map.mp hxpart
      rfl

/-- Witness for the amended C1 at a concrete input: one short and one
long comment, fallback enabled, every batch unparsable — both comments
still yield entries. -/
theorem scheduler_cardinality_witness :
    (process_video_batches_parallel
        ["short", "a sufficiently long comment"] cfgSample
        (fun _ => BatchRun.ok BatchOutcome.noJson)).results.length = 2 :=
  (scheduler_cardinality ["short", "a sufficiently long comment"] cfgSample
      (fun _ => BatchRun.ok BatchOutcome.noJson) (by decide)).2 (by decide)
    (fun _ _ => Or.inr (Or.inl rfl))

/-- Counterexample to claim C2: a batch whose external call raises, with
fallback disabled — its (long-enough) comment is not assigned an error
marker; its slot is None and the scheduler's final filter drops it, so
the batch contributes nothing to the output. -/
theorem failed_batch_without_fallback_drops :
    (process_video_batches_parallel ["the audio quality is bad"]
        { cfgSample with enable_fallback := some false }
        (fun _ => BatchRun.ok (BatchOutcome.exn "APIError"))).results = [] := by
  decide

/-- Claim C2 as amended: when fallback is disabled and the external call
fails or its response has no parsable array, the batch's result list
keeps one entry per input comment in input order (count and order
preserved inside the batch), but each comment that was sent out is
assigned None — not an explicit error-marker — and those None entries
are subsequently dropped by the scheduler; error markers only arise when
the batch's worker task itself crashes. -/
theorem failed_batch_without_fallback (comments : List String)
    (minLength : Nat) (o : BatchOutcome)
    (hfail : o = .noJson ∨ ∃ m, o = .exn m) :
    analyze_comments_batch comments minLength false o =
      comments.map (fun c =>
        if isShortComment minLength c then some neutralDefault else none) ∧
    (analyze_comments_batch comments minLength false o).length =
      comments.length := by
  refine ⟨?_, analyze_comments_batch_length comments minLength false o⟩
  rcases hfail with rfl | ⟨m, rfl⟩
  all_goals
    simp only [analyze_comments_batch]
    split
    · rfl
    · simp

/-- Witness for amended C2: a short and a long comment, exception, no
fallback — neutral default for the short one, None for the long one. -/
theorem failed_batch_without_fallback_witness :
    analyze_comments_batch ["ok", "the video editing is great"] 10 false
        BatchOutcome.noJson = [some neutralDefault, none] :=
  ((failed_batch_without_fallback ["ok", "the video editing is great"] 10
      BatchOutcome.noJson (Or.inl rfl)).1).trans (by decide)

lemma assignResults_shift (ps : List (Nat × Option CommentAnalysis))
    (x : Option CommentAnalysis) (r : List (Option CommentAnalysis)) :
    assignResults (x :: r) (ps.map (Prod.map Nat.succ id)) =
      x :: assignResults r ps := by
  induction ps generalizing r with
  | nil => rfl
  | cons p ps ih =>
    obtain ⟨i, v⟩ := p
    show assignResults (x :: r.set i v) (ps.map (Prod.map Nat.succ id)) =
      x :: assignResults (r.set i v) ps
    exact ih (r.set i v)

/-- Zipping a response of `items` onto slots `0, …, n-1`: entry `k` of the
response lands on comment `k`; missing tail entries leave None slots. -/
lemma assignResults_range_zip :
    ∀ (n : Nat) (items : List (Option CommentAnalysis)),
      assignResults (List.replicate n none) ((List.range n).zip items) =
        items.take n ++ List.replicate (n - items.length) none := by
  intro n
  induction n with
  | zero => intro items; simp [assignResults]
  | succ k ih =>
    intro items
    cases items with
    | nil => simp [assignResults]
    | cons v vs =>
      have h1 : assignResults (List.replicate (k + 1) none)
          ((List.range (k + 1)).zip (v :: vs)) =
          v :: assignResults (List.replicate k none) ((List.range k).zip vs) := by
        rw [List.range_succ_eq_map, List.replicate_succ, List.zip_cons_cons,
          List.zip_map_left]
        exact assignResults_shift ((List.range k).zip vs) v
          (List.replicate k none)
      rw [h1, ih vs]
      simp [List.take_succ_cons, Nat.succ_sub_succ]

lemma base_results_replicate (comments : List String) (minLength : Nat)
    (hvalid : ∀ c ∈ comments, isShortComment minLength c = false) :
    comments.map (fun c =>
      if isShortComment minLength c then some neutralDefault else none) =
      List.replicate comments.length (none : Option CommentAnalysis) := by
  rw [List.eq_replicate_iff]
  refine ⟨by simp, ?_⟩
  intro b hb
  obtain ⟨c, hc, rfl⟩ := List.mem_map.mp hb
  simp [hvalid c hc]

lemma validIndices_all_valid (comments : List String) (minLength : Nat)
    (hvalid : ∀ c ∈ comments, isShortComment minLength c = false) :
    validIndices comments minLength = List.range comments.length := by
  unfold validIndices
  rw [List.filter_eq_self.mpr, List.enum_map_fst]
  intro p hp
  obtain ⟨i, x⟩ := p
  have h := List.mem_enumFrom hp
  have hi : i < comments.length := by simpa using h.2.1
  have hx : x ∈ comments := by
    have heq := h.2.2
    simp only [Nat.sub_zero] at heq
    rw [heq]
    exact List.getElem_mem _
  simp [hvalid x hx]

/-- Claim C3 as amended: the response entries are mapped onto the valid
comments strictly by array position (`zip`), with no validation of the
response's cardinality or of any ordinal labels: for a batch of valid
comments, entry `k` of the parsed array is assigned to comment `k`, a
response with fewer entries than comments is accepted silently leaving
the tail comments with None, and extra entries are silently ignored. -/
theorem batch_positional_mapping (comments : List String) (minLength : Nat)
    (fb : Bool) (items : List (Option CommentAnalysis))
    (hvalid : ∀ c ∈ comments, isShortComment minLength c = false) :
    analyze_comments_batch comments minLength fb (.parsed items) =
      items.take comments.length ++
        List.replicate (comments.length - items.length) none := by
  simp only [analyze_comments_batch,
    base_results_replicate comments minLength hvalid,
    validIndices_all_valid comments minLength hvalid]
  cases comments with
  | nil => simp [assignResults]
  | cons c cs =>
    rw [if_neg (by simp [List.isEmpty_iff, List.range_eq_nil])]
    exact assignResults_range_zip _ _

def sampleAnalysis : CommentAnalysis :=
  ⟨"positive", ["video quality"], [], ["clear picture"], [], true⟩

/-- Counterexample to claim C3: two valid comments, but the external
response parses to a single analysis object; it is accepted silently and
positionally — the first comment gets the entry, the second comment's
slot stays None, and neither an error nor the (enabled!) fallback is
triggered, contradicting count/label validation. -/
theorem short_response_accepted_positionally :
    analyze_comments_batch
        ["first long enough comment", "second long enough comment"] 10 true
        (BatchOutcome.parsed [some sampleAnalysis]) =
      [some sampleAnalysis, none] := by decide

/-- Witness for amended C3: one valid comment, two response entries —
the first entry is taken positionally, the extra one is ignored. -/
theorem batch_positional_mapping_witness :
    analyze_comments_batch ["only one valid comment here"] 10 false
        (BatchOutcome.parsed [some sampleAnalysis, some sampleAnalysis]) =
      [some sampleAnalysis] :=
  (batch_positional_mapping ["only one valid comment here"] 10 false
      [some sampleAnalysis, some sampleAnalysis] (by decide)).trans (by decide)

/-! ### Aggregation engine (analyze_video.py lines 272–351)

`collections.Counter` preserves the insertion (first-occurrence) order
of its keys, and `Counter.most_common(n)` is `heapq.nlargest`, i.e.
`sorted(items, reverse=True)[:n]` — a stable descending sort by count
whose ties keep insertion order.  We model the counter as an
association list in first-occurrence order and `most_common` as a
stable insertion sort by descending count. -/

/-- Python `comment.get('error')` truthiness (error markers carry a non-empty
reason string). -/
def hasError : AnalyzedComment → Bool
  | .analysis _ => false
  | .errorMarker _ => true

/-- Python `comment.get('is_relevant_feedback', False)`. -/
def isRelevantEntry : AnalyzedComment → Bool
  | .analysis a => a.is_relevant_feedback
  | .errorMarker _ => false

def relevantComments (l : List AnalyzedComment) : List AnalyzedComment :=
  l.filter (fun e => isRelevantEntry e && !hasError e)

def allValidComments (l : List AnalyzedComment) : List AnalyzedComment :=
  l.filter (fun e => !hasError e)

/-- Python `comment['sentiment']` where the key exists (error dictionaries have
no sentiment key). -/
def sentimentOf : AnalyzedComment → Option String
  | .analysis a => some a.sentiment
  | .errorMarker _ => none

def sentiments (l : List AnalyzedComment) : List String :=
  (allValidComments l).filterMap sentimentOf

/-- Round half to even on rationals — Python `round` on exact values. -/
def roundHalfEven (q : ℚ) : ℤ :=
  let f := ⌊q⌋
  if q - f < 1/2 then f
  else if 1/2 < q - f then f + 1
  else if f % 2 = 0 then f else f + 1

/-- Python `round(x, 2)` modelled on exact rationals. -/
def pyRound2 (q : ℚ) : ℚ := (roundHalfEven (q * 100) : ℚ) / 100

/-- The `sentiment_summary` dictionary: the source always writes all six
keys, so a structure is the faithful model. -/
structure SentimentSummary where
  positive_count : Nat
  neutral_count : Nat
  negative_count : Nat
  positive_percentage : ℚ
  neutral_percentage : ℚ
  negative_percentage : ℚ
deriving Repr, DecidableEq

def sentiment_summary (l : List AnalyzedComment) : SentimentSummary :=
  let s := sentiments l
  let total := s.length
  let pc := s.count "positive"
  let nc := s.count "neutral"
  let gc := s.count "negative"
  if 0 < total then
    ⟨pc, nc, gc,
      pyRound2 ((pc : ℚ) / (total : ℚ) * 100),
      pyRound2 ((nc : ℚ) / (total : ℚ) * 100),
      pyRound2 ((gc : ℚ) / (total : ℚ) * 100)⟩
  else ⟨pc, nc, gc, 0, 0, 0⟩

/-- Python `label.lower().strip() for label in labels if label and
isinstance(label, str)`. -/
def normalizeLabels (labels : List String) : List String :=
  (labels.filter (fun t => !(t == ""))).map (fun t => pyStrip (pyLower t))

/-- The normalized labels of one list-valued field, collected across the
relevant analyses in original order. -/
def collectLabels (f : CommentAnalysis → List String)
    (l : List AnalyzedComment) : List String :=
  (relevantComments l).flatMap (fun e =>
    match e with
    | .analysis a => normalizeLabels (f a)
    | .errorMarker _ => [])

/-- Keys of `collections.Counter(l)` in first-occurrence order. -/
def firstKeysAux (seen : List String) : List String → List String
  | [] => []
  | a :: l =>
    if a ∈ seen then firstKeysAux seen l
    else a :: firstKeysAux (a :: seen) l

def firstKeys (l : List String) : List String := firstKeysAux [] l

/-- Python `Counter(l)` as (key, multiplicity) pairs in insertion order. -/
def counterItems (l : List String) : List (String × Nat) :=
  (firstKeys l).map (fun k => (k, l.count k))

/-- Stable insertion for descending-by-count order: the inserted
(earlier) element goes before elements of equal count. -/
def insertDesc (x : String × Nat) : List (String × Nat) → List (String × Nat)
  | [] => [x]
  | y :: l => if y.2 ≤ x.2 then x :: y :: l else y :: insertDesc x l

/-- Stable descending sort by count — the behaviour of
`sorted(…, reverse=True)` and of `heapq.nlargest`. -/
def sortCountDesc : List (String × Nat) → List (String × Nat)
  | [] => []
  | x :: l => insertDesc x (sortCountDesc l)

/-- Python `Counter(labels).most_common(n)`. -/
def most_common (n : Nat) (labels : List String) : List (String × Nat) :=
  (sortCountDesc (counterItems labels)).take n

/-- Python `rec.strip() for rec in recommendations if rec and
isinstance(rec, str)`, collected across relevant analyses. -/
def collectRecommendations (l : List AnalyzedComment) : List String :=
  (relevantComments l).flatMap (fun e =>
    match e with
    | .analysis a =>
        (a.recommendations_for_creator.filter (fun r => !(r == ""))).map pyStrip
    | .errorMarker _ => [])

/-- Python `list(dict.fromkeys(all_recommendations))`. -/
def unique_recommendations (l : List AnalyzedComment) : List String :=
  firstKeys (collectRecommendations l)

structure AggregatedSummary where
  video_url_or_id : String
  total_comments_processed : Nat
  relevant_comments_count : Nat
  sentiment_summary : SentimentSummary
  top_topics : List (String × Nat)
  common_pain_points : List (String × Nat)
  highlighted_advantages : List (String × Nat)
  creator_recommendations : List String
deriving Repr, DecidableEq

/-- Function `aggregate_video_analysis`. -/
def aggregate_video_analysis (video_id : String)
    (analyzed : List AnalyzedComment)
    (top_n_topics top_n_pain_points top_n_advantages : Nat) :
    AggregatedSummary :=
  ⟨video_id, analyzed.length, (relevantComments analyzed).length,
    sentiment_summary analyzed,
    most_common top_n_topics (collectLabels (fun a => a.topics) analyzed),
    most_common top_n_pain_points
      (collectLabels (fun a => a.pain_points) analyzed),
    most_common top_n_advantages
      (collectLabels (fun a => a.advantages) analyzed),
    unique_recommendations analyzed⟩

/-- Index of the first occurrence of a label in the scanned sequence. -/
def firstIdx (x : String) : List String → Nat
  | [] => 0
  | a :: l => if a = x then 0 else firstIdx x l + 1

/-- The ranking order the spec prescribes over (label, count) pairs:
strictly greater count first, ties broken by earlier first occurrence in
the scanned label sequence. -/
def RankOrder (labels : List String) (p q : String × Nat) : Prop :=
  q.2 < p.2 ∨ (p.2 = q.2 ∧ firstIdx p.1 labels < firstIdx q.1 labels)

lemma insertDesc_perm (x : String × Nat) (l : List (String × Nat)) :
    (insertDesc x l).Perm (x :: l) := by
  induction l with
  | nil => exact List.Perm.refl _
  | cons y l ih =>
    by_cases h : y.2 ≤ x.2
    · rw [insertDesc, if_pos h]
    · rw [insertDesc, if_neg h]
      exact (List.Perm.cons y ih).trans (List.Perm.swap x y l)

lemma sortCountDesc_perm (l : List (String × Nat)) :
    (sortCountDesc l).Perm l := by
  induction l with
  | nil => exact List.Perm.refl _
  | cons x l ih => exact (insertDesc_perm x _).trans (List.Perm.cons x ih)

lemma insertDesc_pairwise {R : String × Nat → String × Nat → Prop}
    (x : String × Nat) (m : List (String × Nat))
    (hm : m.Pairwise (fun p q => q.2 < p.2 ∨ (p.2 = q.2 ∧ R p q)))
    (hx : ∀ y ∈ m, R x y) :
    (insertDesc x m).Pairwise
      (fun p q => q.2 < p.2 ∨ (p.2 = q.2 ∧ R p q)) := by
  induction m with
  | nil => simp [insertDesc]
  | cons y m ih =>
    rw [List.pairwise_cons] at hm
    obtain ⟨hy, hm'⟩ := hm
    by_cases h : y.2 ≤ x.2
    · rw [insertDesc, if_pos h, List.pairwise_cons]
      refine ⟨?_, List.pairwise_cons.mpr ⟨hy, hm'⟩⟩
      intro z hz
      rcases List.mem_cons.mp hz with rfl | hz'
      · rcases Nat.lt_or_ge z.2 x.2 with hlt | hge
        · exact Or.inl hlt
        · exact Or.inr ⟨Nat.le_antisymm hge h, hx z (List.mem_cons_self z m)⟩
      · rcases hy z hz' with hlt | ⟨heq, _⟩
        · exact Or.inl (Nat.lt_of_lt_of_le hlt h)
        · rcases Nat.lt_or_ge z.2 x.2 with hlt2 | hge2
          · exact Or.inl hlt2
          · have : x.2 = z.2 := by omega
            exact Or.inr ⟨this, hx z (List.mem_cons_of_mem _ hz')⟩
    · rw [insertDesc, if_neg h, List.pairwise_cons]
      refine ⟨?_, ih hm' (fun z hz => hx z (List.mem_cons_of_mem _ hz))⟩
      intro z hz
      have hz' : z = x ∨ z ∈ m := by
        simpa using (insertDesc_perm x m).mem_iff.mp hz
      rcases hz' with rfl | hz'
      · exact Or.inl (Nat.lt_of_not_le h)
      · exact hy z hz'

lemma sortCountDesc_pairwise {R : String × Nat → String × Nat → Prop}
    (l : List (String × Nat)) (hl : l.Pairwise R) :
    (sortCountDesc l).Pairwise
      (fun p q => q.2 < p.2 ∨ (p.2 = q.2 ∧ R p q)) := by
  induction l with
  | nil => simp [sortCountDesc]
  | cons x l ih =>
    rw [List.pairwise_cons] at hl
    exact insertDesc_pairwise x _ (ih hl.2)
      (fun y hy => hl.1 y ((sortCountDesc_perm l).mem_iff.mp hy))

lemma firstKeysAux_mem : ∀ (l seen : List String) (k : String),
    k ∈ firstKeysAux seen l → k ∈ l ∧ k ∉ seen := by
  intro l
  induction l with
  | nil => intro seen k h; simp [firstKeysAux] at h
  | cons a l ih =>
    intro seen k h
    rw [firstKeysAux] at h
    split at h
    case isTrue ha =>
      obtain ⟨h1, h2⟩ := ih seen k h
      exact ⟨List.mem_cons_of_mem _ h1, h2⟩
    case isFalse ha =>
      rcases List.mem_cons.mp h with rfl | h'
      · exact ⟨List.mem_cons_self k l, ha⟩
      · obtain ⟨h1, h2⟩ := ih _ k h'
        exact ⟨List.mem_cons_of_mem _ h1,
          fun hk => h2 (List.mem_cons_of_mem _ hk)⟩

lemma firstIdx_cons_ne (a x : String) (l : List String) (h : a ≠ x) :
    firstIdx x (a :: l) = firstIdx x l + 1 := by
  simp [firstIdx, h]

lemma firstKeysAux_pairwise : ∀ (l seen : List String),
    (firstKeysAux seen l).Pairwise
      (fun a b => firstIdx a l < firstIdx b l) := by
  intro l
  induction l with
  | nil => intro seen; simp [firstKeysAux]
  | cons a l ih =>
    intro seen
    rw [firstKeysAux]
    split
    case isTrue h =>
      refine List.Pairwise.imp_of_mem ?_ (ih seen)
      intro p q hp hq hpq
      have hpa : a ≠ p := fun e => (firstKeysAux_mem l seen p hp).2 (e ▸ h)
      have hqa : a ≠ q := fun e => (firstKeysAux_mem l seen q hq).2 (e ▸ h)
      rw [firstIdx_cons_ne a p l hpa, firstIdx_cons_ne a q l hqa]
      omega
    case isFalse h =>
      rw [List.pairwise_cons]
      constructor
      · intro b hb
        obtain ⟨hbl, hbs⟩ := firstKeysAux_mem l (a :: seen) b hb
        have hba : a ≠ b := fun e => hbs (e ▸ List.mem_cons_self a seen)
        rw [show firstIdx a (a :: l) = 0 by simp [firstIdx],
          firstIdx_cons_ne a b l hba]
        omega
      · refine List.Pairwise.imp_of_mem ?_ (ih (a :: seen))
        intro p q hp hq hpq
        have hpa : a ≠ p := fun e =>
          (firstKeysAux_mem l _ p hp).2 (e ▸ List.mem_cons_self a seen)
        have hqa : a ≠ q := fun e =>
          (firstKeysAux_mem l _ q hq).2 (e ▸ List.mem_cons_self a seen)
        rw [firstIdx_cons_ne a p l hpa, firstIdx_cons_ne a q l hqa]
        omega

lemma counterItems_pairwise (labels : List String) :
    (counterItems labels).Pairwise
      (fun p q => firstIdx p.1 labels < firstIdx q.1 labels) := by
  unfold counterItems firstKeys
  rw [List.pairwise_map]
  exact firstKeysAux_pairwise labels []

lemma counterItems_mem (labels : List String) (p : String × Nat)
    (hp : p ∈ counterItems labels) :
    p.1 ∈ labels ∧ p.2 = labels.count p.1 := by
  unfold counterItems firstKeys at hp
  obtain ⟨k, hk, rfl⟩ := List.mem_map.mp hp
  exact ⟨(firstKeysAux_mem labels [] k hk).1, rfl⟩

/-- The sorted output of `most_common` is ordered by `RankOrder` and its
counts are the true multiplicities of the labels. -/
lemma most_common_spec (labels : List String) (n : Nat) :
    (most_common n labels).Pairwise (RankOrder labels) ∧
    ∀ p ∈ most_common n labels,
      p.1 ∈ labels ∧ p.2 = labels.count p.1 := by
  constructor
  · have h := sortCountDesc_pairwise (counterItems labels)
      (counterItems_pairwise labels)
    exact List.Pairwise.sublist (List.take_sublist n _) h
  · intro p hp
    have hp1 : p ∈ sortCountDesc (counterItems labels) :=
      (List.take_sublist n _).mem hp
    exact counterItems_mem labels p
      ((sortCountDesc_perm (counterItems labels)).mem_iff.mp hp1)

lemma relevantComments_append_excluded (l : List AnalyzedComment)
    (e : AnalyzedComment)
    (he : isRelevantEntry e = false ∨ hasError e = true) :
    relevantComments (l ++ [e]) = relevantComments l := by
  unfold relevantComments
  rw [List.filter_append]
  have : (isRelevantEntry e && !hasError e) = false := by
    rcases he with h | h <;> simp [h]
  simp [List.filter_cons, this]

/-- A single relevant analysis holding one pain point. -/
def painOnly (p : String) : AnalyzedComment :=
  .analysis ⟨"neutral", [], [p], [], [], true⟩

/-- Claim C4: topic/pain-point/advantage rankings are the stable
descending-by-count order over the normalized (lower-cased, stripped)
labels of relevant analyses only: (1) each ranked field of the
aggregation equals `most_common` of the labels collected from relevant
analyses in original order; (2) the ranked list is pairwise ordered by
strictly-descending count with ties broken by the label's earlier first
occurrence (never alphabetically), and every reported count is the
label's true multiplicity; (3) appending an irrelevant or error entry
changes no ranking; (4) concretely, pain points scanning as
[audio, lag, lag, audio] (counts 2 and 2, audio first seen earlier) rank
audio before lag. -/
theorem ranking_by_count_and_first_occurrence :
    (∀ (vid : String) (analyzed : List AnalyzedComment) (tt tp ta : Nat),
      (aggregate_video_analysis vid analyzed tt tp ta).top_topics =
        most_common tt (collectLabels (fun a => a.topics) analyzed) ∧
      (aggregate_video_analysis vid analyzed tt tp ta).common_pain_points =
        most_common tp (collectLabels (fun a => a.pain_points) analyzed) ∧
      (aggregate_video_analysis vid analyzed tt tp ta).highlighted_advantages =
        most_common ta (collectLabels (fun a => a.advantages) analyzed)) ∧
    (∀ (labels : List String) (n : Nat),
      (most_common n labels).Pairwise (RankOrder labels) ∧
      ∀ p ∈ most_common n labels,
        p.1 ∈ labels ∧ p.2 = labels.count p.1) ∧
    (∀ (vid : String) (analyzed : List AnalyzedComment) (tt tp ta : Nat)
        (e : AnalyzedComment),
      isRelevantEntry e = false ∨ hasError e = true →
      aggregate_video_analysis vid (analyzed ++ [e]) tt tp ta =
        { aggregate_video_analysis vid analyzed tt tp ta with
            total_comments_processed := analyzed.length + 1,
            sentiment_summary :=
              sentiment_summary (analyzed ++ [e]) }) ∧
    (aggregate_video_analysis "v"
        [painOnly "audio", painOnly "lag", painOnly "lag", painOnly "audio"]
        5 5 5).common_pain_points = [("audio", 2), ("lag", 2)] := by
  refine ⟨fun vid analyzed tt tp ta => ⟨rfl, rfl, rfl⟩,
    fun labels n => most_common_spec labels n, ?_, by decide⟩
  intro vid analyzed tt tp ta e he
  have hrel := relevantComments_append_excluded analyzed e he
  have hcl : ∀ f : CommentAnalysis → List String,
      collectLabels f (analyzed ++ [e]) = collectLabels f analyzed := by
    intro f; unfold collectLabels; rw [hrel]
  have hcr : collectRecommendations (analyzed ++ [e]) =
      collectRecommendations analyzed := by
    unfold collectRecommendations; rw [hrel]
  simp only [aggregate_video_analysis, hrel, hcl, hcr,
    unique_recommendations, hcr, List.length_append, List.length_cons,
    List.length_nil]

/-- Witness for C4: the general ranking property applied to the concrete
tie-break example. -/
theorem ranking_by_count_and_first_occurrence_witness :
    (most_common 5 ["audio", "lag", "lag", "audio"]).Pairwise
        (RankOrder ["audio", "lag", "lag", "audio"]) ∧
      ("audio", 2) ∈ most_common 5 ["audio", "lag", "lag", "audio"] ∧
      (("audio", 2).1 ∈ ["audio", "lag", "lag", "audio"] ∧
        ("audio", 2).2 = ["audio", "lag", "lag", "audio"].count ("audio", 2).1) :=
  ⟨(ranking_by_count_and_first_occurrence.2.1
      ["audio", "lag", "lag", "audio"] 5).1,
   by decide,
   (ranking_by_count_and_first_occurrence.2.1
      ["audio", "lag", "lag", "audio"] 5).2 ("audio", 2) (by decide)⟩

lemma roundHalfEven_intCast (k : ℤ) : roundHalfEven (k : ℚ) = k := by
  simp only [roundHalfEven, Int.floor_intCast, sub_self]
  norm_num

lemma pyRound2_intCast (k : ℤ) : pyRound2 (k : ℚ) = (k : ℚ) := by
  unfold pyRound2
  have h : ((k : ℚ)) * 100 = ((k * 100 : ℤ) : ℚ) := by push_cast; ring
  rw [h, roundHalfEven_intCast]
  push_cast
  field_simp

lemma filter_filterMap {α β : Type} (p : α → Bool) (f : α → Option β) :
    ∀ l : List α, (l.filter p).filterMap f =
      l.filterMap (fun e => if p e then f e else none) := by
  intro l
  induction l with
  | nil => rfl
  | cons x l ih =>
    by_cases h : p x = true
    · rw [List.filter_cons_of_pos h, List.filterMap_cons, List.filterMap_cons,
        if_pos h, ih]
    · rw [List.filter_cons_of_neg h, List.filterMap_cons, if_neg h, ih]

/-- The sentiment list depends only on each entry's error status and
sentiment field (never on relevance). -/
lemma sentiments_depends (l : List AnalyzedComment) :
    sentiments l = (l.map (fun e => (hasError e, sentimentOf e))).filterMap
      (fun p => if p.1 then none else p.2) := by
  unfold sentiments allValidComments
  rw [filter_filterMap, List.filterMap_map]
  refine List.filterMap_congr ?_
  intro e _
  cases he : hasError e <;> simp [he, Function.comp]

/-- A relevant analysis with a given sentiment. -/
def sentOnly (s : String) : AnalyzedComment :=
  .analysis ⟨s, [], [], [], [], true⟩

/-- Claim C5: sentiment percentages are computed over all non-error
analyses: (1) the whole sentiment summary is a function of each entry's
(error status, sentiment) alone, so relevance flags never gate it;
(2) when every entry is an error (zero denominator) all counts and
percentages are zero rather than undefined; (3) each percentage is an
integer multiple of 1/100 (two decimal places); (4) all three classes
are always present zero-filled, and concretely counts
positive=3, neutral=1, negative=0 give 75.0 / 25.0 / 0.0. -/
theorem sentiment_percentages_over_non_error :
    (∀ l l' : List AnalyzedComment,
      l.map (fun e => (hasError e, sentimentOf e)) =
        l'.map (fun e => (hasError e, sentimentOf e)) →
      sentiment_summary l = sentiment_summary l') ∧
    (∀ l : List AnalyzedComment, (∀ e ∈ l, hasError e = true) →
      sentiment_summary l = ⟨0, 0, 0, 0, 0, 0⟩) ∧
    (∀ l : List AnalyzedComment, ∃ kp kn kg : ℤ,
      (sentiment_summary l).positive_percentage = kp / 100 ∧
      (sentiment_summary l).neutral_percentage = kn / 100 ∧
      (sentiment_summary l).negative_percentage = kg / 100) ∧
    sentiment_summary
        [sentOnly "positive", sentOnly "positive",
         .errorMarker "Batch processing failed: boom",
         sentOnly "positive", sentOnly "neutral"] =
      ⟨3, 1, 0, 75, 25, 0⟩ := by
  refine ⟨?_, ?_, ?_, ?_⟩
  · intro l l' h
    have hs : sentiments l = sentiments l' := by
      rw [sentiments_depends, sentiments_depends, h]
    simp only [sentiment_summary, hs]
  · intro l hl
    have hs : sentiments l = [] := by
      unfold sentiments allValidComments
      rw [List.filter_eq_nil_iff.mpr (fun e he => by simp [hl e he])]
      rfl
    simp [sentiment_summary, hs]
  · intro l
    simp only [sentiment_summary]
    split
    · exact ⟨_, _, _, rfl, rfl, rfl⟩
    · exact ⟨0, 0, 0, by norm_num, by norm_num, by norm_num⟩
  · have hs : sentiments [sentOnly "positive", sentOnly "positive",
        .errorMarker "Batch processing failed: boom",
        sentOnly "positive", sentOnly "neutral"] =
        ["positive", "positive", "positive", "neutral"] := by decide
    have hp : (["positive", "positive", "positive", "neutral"] :
        List String).count "positive" = 3 := by decide
    have hn : (["positive", "positive", "positive", "neutral"] :
        List String).count "neutral" = 1 := by decide
    have hg : (["positive", "positive", "positive", "neutral"] :
        List String).count "negative" = 0 := by decide
    have e1 : pyRound2 (75 : ℚ) = 75 := by
      have h : (75 : ℚ) = ((75 : ℤ) : ℚ) := by norm_num
      rw [h, pyRound2_intCast]
    have e2 : pyRound2 (25 : ℚ) = 25 := by
      have h : (25 : ℚ) = ((25 : ℤ) : ℚ) := by norm_num
      rw [h, pyRound2_intCast]
    have e3 : pyRound2 (0 : ℚ) = 0 := by
      have h : (0 : ℚ) = ((0 : ℤ) : ℚ) := by norm_num
      rw [h, pyRound2_intCast]
    simp only [sentiment_summary, hs, hp, hn, hg, List.length_cons,
      List.length_nil]
    norm_num
    exact ⟨e1, e2, e3⟩

/-- Witness for C5: changing only relevance flags (here: comparing a
relevant and an irrelevant analysis with the same sentiment) leaves the
sentiment summary unchanged. -/
theorem sentiment_percentages_over_non_error_witness :
    sentiment_summary [.analysis ⟨"positive", [], [], [], [], true⟩] =
      sentiment_summary [.analysis ⟨"positive", [], [], [], [], false⟩] :=
  sentiment_percentages_over_non_error.1 _ _ (by decide)

/-- Counterexample to claim C10: with minimum-length threshold 0 the
empty comment has stripped length 0, which reaches the threshold, yet
the fallback assigns it the neutral default with
is_relevant_feedback = false — not the degraded relevant analysis. -/
theorem fallback_empty_comment_not_relevant :
    0 ≤ (pyStrip "").length ∧
    analyze_comments_fallback [""] 0 = [some neutralDefault] ∧
    neutralDefault.is_relevant_feedback = false := by decide

/-- Claim C10 as amended: in the fallback path every non-empty comment
whose stripped length reaches the threshold is assigned the degraded
analysis (sentiment neutral, topics [general], empty pain points,
advantages and recommendations, is_relevant_feedback = true), and each
degraded entry is counted as relevant feedback by the aggregation
engine, inflating relevant_comments_count by one. -/
theorem fallback_degraded_counted_relevant :
    (∀ (comments : List String) (minLength i : Nat) (c : String),
      comments[i]? = some c → c ≠ "" →
      minLength ≤ (pyStrip c).length →
      (analyze_comments_fallback comments minLength)[i]? =
        some (some degradedFallback)) ∧
    degradedFallback = ⟨"neutral", ["general"], [], [], [], true⟩ ∧
    (∀ (vid : String) (l : List AnalyzedComment) (tt tp ta : Nat),
      (aggregate_video_analysis vid (l ++ [.analysis degradedFallback])
          tt tp ta).relevant_comments_count =
        (aggregate_video_analysis vid l tt tp ta).relevant_comments_count
          + 1) := by
  refine ⟨?_, rfl, ?_⟩
  · intro comments minLength i c hc hne hlen
    unfold analyze_comments_fallback
    rw [List.getElem?_map, hc]
    have hshort : isShortComment minLength c = false := by
      unfold isShortComment
      rw [Bool.or_eq_false_iff]
      constructor
      · simpa using hne
      · simpa using Nat.not_lt.mpr hlen
    simp [hshort]
  · intro vid l tt tp ta
    show (relevantComments (l ++ [.analysis degradedFallback])).length =
      (relevantComments l).length + 1
    unfold relevantComments
    rw [List.filter_append]
    simp [List.filter_cons, isRelevantEntry, hasError, degradedFallback]

/-- Witness for the amended C10 at a concrete comment. -/
theorem fallback_degraded_counted_relevant_witness :
    (analyze_comments_fallback ["great video overall"] 10)[0]? =
      some (some degradedFallback) :=
  fallback_degraded_counted_relevant.1 ["great video overall"] 10 0
    "great video overall" rfl (by decide) (by decide)

/-! ### Single-video pipeline and multi-video orchestrator
(analyze_video.py lines 17–110 and 354–443, analyze_all.py lines 26–99)

File I/O, the DataFrame library, the audience capability and the clock
are external effects; their observable outcomes are fields of
`VideoEnv`.  Exceptions are modelled with `Except`: a `.error` value is
an exception propagating out of the function; try/except blocks in the
source become matches on these outcomes. -/

structure RawComment where
  text : String
deriving Repr, DecidableEq

/-- The external pure predicates used by the filtering step
(`utils.is_url_only`, and `utils.detect_language_safe`, which already
swallows its own failures and returns a language code or "unknown"). -/
structure FilterEnv where
  isUrlOnly : String → Bool
  detectLang : String → String

/-- Function `preprocess_and_filter_comments`: length filter on the raw text,
URL-only removal, then a language filter that a falsy `filter_language`
(absent or empty string) skips. -/
def preprocess_and_filter_comments (fe : FilterEnv)
    (comments : List RawComment) (filter_language : Option String)
    (min_length : Nat) : List RawComment :=
  let l1 := comments.filter (fun c => min_length ≤ c.text.length)
  let l2 := l1.filter (fun c => !fe.isUrlOnly c.text)
  match filter_language with
  | none => l2
  | some lang =>
    if lang = "" then l2
    else l2.filter (fun c => fe.detectLang c.text == lang)

/-- The `config_used` snapshot stored in the result. -/
structure ConfigUsed where
  analysis_model : Option String
  filter_language : Option String
  min_length : Option Nat
  max_comments : Option Nat
  batch_size : Option Nat
deriving Repr, DecidableEq

structure AnalysisResult where
  video_id : String
  video_url : String
  analysis_summary : AggregatedSummary
  analyzed_comments : List AnalyzedComment
  audience_analysis : Option String
  config_used : ConfigUsed
  analysis_timestamp : String
deriving Repr, DecidableEq

/-- Observable outcomes of the effects one video's pipeline performs. -/
structure VideoEnv where
  cacheExists : Bool
  cacheRead : Except String AnalysisResult
  loadedComments : List RawComment
  dataFrameError : Option String
  filterError : Option String
  filterEnv : FilterEnv
  runs : Nat → BatchRun
  audienceRun : Except String String
  mkdirResult : Except String Unit
  writeResult : Except String Unit
  timestamp : String

/-- Function `load_cached_analysis`: disabled cache or missing file is a miss; a
read/parse failure is caught and reported as a miss. -/
def load_cached_analysis (cfg : Config) (env : VideoEnv) :
    Option AnalysisResult :=
  if cfg.use_cache.getD true = false then none
  else if env.cacheExists then
    match env.cacheRead with
    | .ok d => some d
    | .error _ => none
  else none

/-- Function `save_analysis_to_cache`: the `open`/`json.dump` failure is caught
and only warned about, but the `mkdir` call sits outside the
try-block, so its failure escapes as an exception. -/
def save_analysis_to_cache (cfg : Config) (env : VideoEnv) :
    Except String Unit :=
  if cfg.use_cache.getD true = false then .ok ()
  else
    match env.mkdirResult with
    | .error e => .error e
    | .ok _ =>
      match env.writeResult with
      | .ok _ => .ok ()
      | .error _ => .ok ()

/-- Function `analyze_single_video`: cache check, comment loading/filtering with
per-stage exception handling (each failed stage returns `None`),
batch-parallel analysis, aggregation, optional audience analysis whose
failure is swallowed, and the best-effort cache write whose `mkdir`
failure alone escapes. -/
def analyze_single_video (video_id video_url : String) (cfg : Config)
    (env : VideoEnv) : Except String (Option AnalysisResult) :=
  match load_cached_analysis cfg env with
  | some cached => .ok (some cached)
  | none =>
    if env.loadedComments.isEmpty then .ok none
    else
      match env.dataFrameError with
      | some _ => .ok none
      | none =>
        match env.filterError with
        | some _ => .ok none
        | none =>
          let filtered := preprocess_and_filter_comments env.filterEnv
            env.loadedComments cfg.filter_language (cfg.min_length.getD 10)
          if filtered.isEmpty then .ok none
          else
            let texts := (filtered.take (cfg.max_comments.getD 1000)).map
              RawComment.text
            let analyzed :=
              (process_video_batches_parallel texts cfg env.runs).results
            let summary := aggregate_video_analysis video_id analyzed 5 5 5
            let audience :=
              if cfg.analyze_audience.getD false ||
                  cfg.language_analysis.getD false then
                match env.audienceRun with
                | .ok s => some s
                | .error _ => none
              else none
            let result : AnalysisResult :=
              ⟨video_id, video_url, summary, analyzed, audience,
                ⟨cfg.analysis_model, cfg.filter_language, cfg.min_length,
                  cfg.max_comments, cfg.batch_size⟩, env.timestamp⟩
            match save_analysis_to_cache cfg env with
            | .error e => .error e
            | .ok _ => .ok (some result)

/-- Function `process_single_video_wrapper`: the per-video catch-all boundary —
any exception becomes a `None` (failed-video) outcome. -/
def process_single_video_wrapper (video_id video_url : String)
    (cfg : Config) (env : VideoEnv) : Option AnalysisResult :=
  match analyze_single_video video_id video_url cfg env with
  | .ok r => r
  | .error _ => none

structure VideoInfo where
  video_id : String
  video_url : String
deriving Repr, DecidableEq

structure OrchestratorRun where
  pool_max_workers : Nat
  successful_analyses : List AnalysisResult

/-- Function `analyze_all_videos_parallel`: empty index short-circuits; a missing
`max_video_workers` key raises (`min(None, n)`); otherwise the futures
complete in an arbitrary order (the `order` parameter) and only truthy
results are appended to `successful_analyses`. -/
def analyze_all_videos_parallel (videos : List VideoInfo) (cfg : Config)
    (envs : Nat → VideoEnv) (order : List Nat) :
    Except String OrchestratorRun :=
  if videos.isEmpty then .ok ⟨0, []⟩
  else
    match cfg.max_video_workers with
    | none => .error "TypeError: min(None, int)"
    | some w =>
      let max_workers := min w videos.length
      let successes := order.filterMap (fun i =>
        match videos[i]? with
        | none => none
        | some v =>
          process_single_video_wrapper v.video_id v.video_url cfg (envs i))
      .ok ⟨max_workers, successes⟩

def feSample : FilterEnv := ⟨fun _ => false, fun _ => "en"⟩

/-- An environment in which one video's pipeline fully succeeds. -/
def envGood : VideoEnv :=
  { cacheExists := false
    cacheRead := .error "unused"
    loadedComments := [⟨"this is a sufficiently long comment"⟩]
    dataFrameError := none
    filterError := none
    filterEnv := feSample
    runs := fun _ => .ok (.parsed [some sampleAnalysis])
    audienceRun := .ok "audience profile"
    mkdirResult := .ok ()
    writeResult := .ok ()
    timestamp := "2026-10-12T00:00:00" }

/-- The same environment except that creating the cache directory fails
with an I/O error. -/
def envBad : VideoEnv := { envGood with mkdirResult := .error "disk full" }

def threeVideos : List VideoInfo :=
  [⟨"vid1", "u1"⟩, ⟨"vid2", "u2"⟩, ⟨"vid3", "u3"⟩]

/-- Per-video environments: video 2's pipeline raises. -/
def threeEnvs : Nat → VideoEnv :=
  fun i => if i = 1 then envBad else envGood

/-- Claim C7: (1) an exception escaping one video's pipeline is caught
at the video boundary by the wrapper and recorded as a failed (None)
video; (2) for any completion order of the futures, the orchestrator
returns exactly the successful results — a permutation of the per-video
successes taken in index order, so one video's failure never removes or
aborts its siblings; (3) concretely, of three videos where video 2's
pipeline raises, the orchestrator still returns the results of videos 1
and 3. -/
theorem video_fault_isolation :
    (∀ (vid vurl : String) (cfg : Config) (env : VideoEnv) (msg : String),
      analyze_single_video vid vurl cfg env = .error msg →
      process_single_video_wrapper vid vurl cfg env = none) ∧
    (∀ (videos : List VideoInfo) (cfg : Config) (envs : Nat → VideoEnv)
        (order : List Nat) (w : Nat) (run : OrchestratorRun),
      cfg.max_video_workers = some w →
      order.Perm (List.range videos.length) →
      analyze_all_videos_parallel videos cfg envs order = .ok run →
      run.successful_analyses.Perm
        ((List.range videos.length).filterMap (fun i =>
          match videos[i]? with
          | none => none
          | some v =>
            process_single_video_wrapper v.video_id v.video_url cfg
              (envs i)))) ∧
    (∃ run,
      analyze_all_videos_parallel threeVideos cfgSample threeEnvs
          (List.range 3) = .ok run ∧
      run.successful_analyses.map (fun r => r.video_id) =
        ["vid1", "vid3"]) := by
  refine ⟨?_, ?_, ?_⟩
  · intro vid vurl cfg env msg h
    unfold process_single_video_wrapper
    rw [h]
  · intro videos cfg envs order w run hw hperm hrun
    unfold analyze_all_videos_parallel at hrun
    split at hrun
    case isTrue hempty =>
      obtain rfl : OrchestratorRun.mk 0 [] = run := Except.ok.inj hrun
      have : videos = [] := List.isEmpty_iff.mp hempty
      subst this
      simp
    case isFalse hempty =>
      rw [hw] at hrun
      obtain rfl := (Except.ok.inj hrun).symm
      exact List.Perm.filterMap _ hperm
  · exact ⟨_, rfl, rfl⟩

/-- Witness for C7: the boundary catch applied at the concrete failing
environment — video 2's raised exception becomes a failed-video None. -/
theorem video_fault_isolation_witness :
    process_single_video_wrapper "vid2" "u2" cfgSample envBad = none :=
  video_fault_isolation.1 "vid2" "u2" cfgSample envBad "disk full" rfl

/-- Claim C8 (the code has a bug here): (1) a cache read I/O failure is
caught and treated as a cache miss; (2) a failed `open`/`json.dump`
during the cache write is caught — the video's freshly computed result
is still returned; (3) BUT a failed `mkdir` in the cache-write path
(line 83, outside the try-block) escapes `save_analysis_to_cache`,
aborts `analyze_single_video` after the analysis was fully computed, and
the video is recorded as failed — contradicting the claim that cache
I/O failures never escalate. -/
theorem cache_io_failure_behaviour :
    (∀ (cfg : Config) (env : VideoEnv) (msg : String),
      env.cacheRead = .error msg → load_cached_analysis cfg env = none) ∧
    (∀ (cfg : Config) (env : VideoEnv),
      env.mkdirResult = .ok () → save_analysis_to_cache cfg env = .ok ()) ∧
    (∃ r, analyze_single_video "vid1" "u1" cfgSample
        { envGood with writeResult := .error "io error" } = .ok (some r)) ∧
    (∀ (cfg : Config) (env : VideoEnv) (msg : String),
      cfg.use_cache.getD true = true → env.mkdirResult = .error msg →
      save_analysis_to_cache cfg env = .error msg) ∧
    analyze_single_video "vid2" "u2" cfgSample envBad = .error "disk full" := by
  refine ⟨?_, ?_, ⟨_, rfl⟩, ?_, rfl⟩
  · intro cfg env msg h
    unfold load_cached_analysis
    split
    · rfl
    · split
      · rw [h]
      · rfl
  · intro cfg env h
    unfold save_analysis_to_cache
    split
    · rfl
    · rw [h]
      cases env.writeResult <;> rfl
  · intro cfg env msg hc h
    unfold save_analysis_to_cache
    rw [if_neg (by simp [hc]), h]

/-- Witness for C8: the read-failure-is-a-miss part applied at a
concrete environment whose cache file exists but cannot be read. -/
theorem cache_io_failure_behaviour_witness :
    load_cached_analysis cfgSample
      { envGood with cacheExists := true, cacheRead := .error "io error" } =
      none :=
  cache_io_failure_behaviour.1 cfgSample
    { envGood with cacheExists := true, cacheRead := .error "io error" }
    "io error" rfl

/-- Counterexample to claim C9: for one batch the configured worker-pool
bound stays at max-batch-workers = 2 — it is not clamped to the number
of batches. -/
theorem inner_pool_not_clamped :
    (process_video_batches_parallel ["a sufficiently long comment"]
        cfgSample (fun _ => BatchRun.ok BatchOutcome.noJson)).pool_max_workers
      ≠
      min (cfgSample.max_batch_workers.getD 2)
        (process_video_batches_parallel ["a sufficiently long comment"]
          cfgSample
          (fun _ => BatchRun.ok BatchOutcome.noJson)).num_batches := by
  decide

/-- Claim C9 as amended: the inner batch pool is created with
max-batch-workers (default 2) as-is, with no clamping to the number of
batches (so it can exceed it, e.g. 2 workers for 1 batch); only the
outer video pool is clamped, to min(max-video-workers, video count). -/
theorem pool_size_semantics :
    (∀ (texts : List String) (cfg : Config) (runs : Nat → BatchRun),
      (process_video_batches_parallel texts cfg runs).pool_max_workers =
        cfg.max_batch_workers.getD 2) ∧
    (process_video_batches_parallel ["a sufficiently long comment"]
        cfgSample (fun _ => BatchRun.ok BatchOutcome.noJson)).num_batches
      = 1 ∧
    (∀ (videos : List VideoInfo) (cfg : Config) (envs : Nat → VideoEnv)
        (order : List Nat) (w : Nat) (run : OrchestratorRun),
      videos ≠ [] → cfg.max_video_workers = some w →
      analyze_all_videos_parallel videos cfg envs order = .ok run →
      run.pool_max_workers = min w videos.length) := by
  refine ⟨fun texts cfg runs => rfl, by decide, ?_⟩
  intro videos cfg envs order w run hne hw hrun
  unfold analyze_all_videos_parallel at hrun
  rw [if_neg (by simpa using hne), hw] at hrun
  obtain rfl := (Except.ok.inj hrun).symm
  rfl

/-- Witness for amended C9: three videos, max-video-workers 3 — the
outer pool bound is min 3 3. -/
theorem pool_size_semantics_witness :
    ∃ run,
      analyze_all_videos_parallel threeVideos cfgSample threeEnvs
          (List.range 3) = .ok run ∧
      run.pool_max_workers = min 3 threeVideos.length :=
  ⟨_, rfl, pool_size_semantics.2.2 threeVideos cfgSample threeEnvs
      (List.range 3) 3 _ (by decide) rfl rfl⟩

end Carl
